import Mathlib

/-!
Shallow embedding of the koi-node-gh-sensor GitHub sensor node
(services/github/node): the webhook live ingester (webhook.py), the startup
backfill reconciler (backfill.py), the cursor state store (config.py), the
peer-discovery handlers (handlers/github.py) and the startup directory reset
(core.py), together with theorems settling the frozen claims about them.

External collaborators (the Processor, the Network, the Cache, the GitHub
API client) are modelled at their interface boundary as oracle parameters:
a Boolean oracle says whether a given submission raises, a fetch oracle
returns the provider history or a distinguished error, and so on.  Machine
strings stay Lean String; Python dictionaries become association lists;
fallible paths return Option or a distinguished constructor.
-/

/-- Python truthiness of an optional string: None and the empty string are
falsy, every other string is truthy. -/
def pyTruthy : Option String → Bool
  | some s => s ≠ ""
  | none => false

/-- Keep an optional string only when it is Python-truthy. -/
def truthyVal : Option String → Option String
  | some s => if s = "" then none else some s
  | none => none

/-- Python expression a or b on optional strings: the first operand when it
is truthy, the second otherwise. -/
def pyOr (a b : Option String) : Option String :=
  match a with
  | some s => if s = "" then b else some s
  | none => b

/-- A Python dict from strings to strings, as an association list with
unique keys maintained by dictSet. -/
abbrev StrDict := List (String × String)

/-- Python dict.get: the value stored at a key, or None. -/
def dictGet (d : StrDict) (k : String) : Option String :=
  match d with
  | [] => none
  | p :: rest => if p.1 = k then some p.2 else dictGet rest k

/-- Python dict item assignment: replace the existing binding of the key or
append a fresh one. -/
def dictSet (d : StrDict) (k v : String) : StrDict :=
  match d with
  | [] => [(k, v)]
  | p :: rest => if p.1 = k then (k, v) :: rest else p :: dictSet rest k v

/-- The GithubCommit RID value (types.py): the triple behind
orn:github.commit:owner/repo/sha. -/
structure GithubCommitRid where
  owner : String
  repo : String
  sha : String
deriving DecidableEq

/-- The GithubCommit constructor (types.py lines 12-29): it raises
ValueError on an empty owner, repo or sha and on a path separator inside
owner or repo; modelled as returning none in those cases. -/
def mkGithubCommit (owner repo sha : String) : Option GithubCommitRid :=
  if owner = "" ∨ repo = "" ∨ sha = "" then none
  else if owner.toList.contains '/' ∨ repo.toList.contains '/' then none
  else some ⟨owner, repo, sha⟩

/-- The contents dict both feeds attach to a submitted bundle
(webhook.py lines 126-137, backfill.py lines 75-86). -/
structure CommitContents where
  sha : String
  message : Option String
  author_name : Option String
  author_email : Option String
  author_date : Option String
  committer_name : Option String
  committer_email : Option String
  committer_date : Option String
  html_url : Option String
  parents : List String
deriving DecidableEq

/-- A bundle submitted to the Processor: the RID plus its contents. -/
abbrev Submission := GithubCommitRid × CommitContents

/-- The owner object inside a webhook repository payload: login and name
keys, each possibly absent. -/
structure OwnerInfo where
  login : Option String
  name : Option String
deriving DecidableEq

/-- The repository object of a webhook push payload; an absent repository
key behaves as the empty dict, i.e. all fields none. -/
structure RepoInfo where
  full_name : Option String
  owner : OwnerInfo
  name : Option String
deriving DecidableEq

/-- An author or committer object inside a webhook commit entry. -/
structure PersonInfo where
  name : Option String
  email : Option String
  timestamp : Option String
deriving DecidableEq

/-- One entry of the commits list (or the head_commit object) of a webhook
push payload. -/
structure WCommit where
  id : Option String
  message : Option String
  timestamp : Option String
  url : Option String
  author : PersonInfo
  committer : PersonInfo
  parents : List String
deriving DecidableEq

/-- The JSON body of a webhook request, at the fields the handler reads.
An absent commits key behaves as the empty list and an absent or empty
head_commit object as none. -/
structure Payload where
  repository : Option RepoInfo
  commits : List WCommit
  head_commit : Option WCommit
deriving DecidableEq

/-- payload.get of the repository object, defaulting to the empty dict
(webhook.py line 64). -/
def repoFields (payload : Payload) : RepoInfo :=
  match payload.repository with
  | some r => r
  | none => ⟨none, ⟨none, none⟩, none⟩

/-- The contents dict built for one webhook commit (webhook.py
lines 126-137). -/
def webhookContents (c : WCommit) (sha : String) : CommitContents :=
  { sha := sha
    message := c.message
    author_name := c.author.name
    author_email := c.author.email
    author_date := c.timestamp
    committer_name := c.committer.name
    committer_email := c.committer.email
    committer_date := c.committer.timestamp
    html_url := c.url
    parents := c.parents }

/-- The id of the last entry of a commits list, as commits[-1].get of id. -/
def lastCommitId (l : List WCommit) : Option String :=
  match l.getLast? with
  | some c => c.id
  | none => none

/-- Outcome of the candidate-selection block (webhook.py lines 84-102):
either a list of commits to process together with the sha candidate for the
state update, or the no-processable-commit-data early return. -/
inductive CandSelection where
  | chosen (cands : List WCommit) (tip : Option String)
  | noProcessable
deriving DecidableEq

/-- Candidate selection of the webhook handler (webhook.py lines 84-102):
prefer a head_commit with a truthy id, fall back to a non-empty commits
list using the last entry for the state update sha. -/
def selectCandidates (commitsList : List WCommit) (hd : Option WCommit) : CandSelection :=
  match hd with
  | some hc =>
      if pyTruthy hc.id then .chosen [hc] hc.id
      else if commitsList.isEmpty then .noProcessable
      else .chosen commitsList (lastCommitId commitsList)
  | none =>
      if commitsList.isEmpty then .noProcessable
      else .chosen commitsList (lastCommitId commitsList)

/-- The truthy state-update sha a payload selects, if any. -/
def selectedTip (payload : Payload) : Option String :=
  match selectCandidates payload.commits payload.head_commit with
  | .chosen _ tip => truthyVal tip
  | .noProcessable => none

/-- An HTTP response of the webhook endpoint: a returned JSON message with
the route status, or a raised HTTPException with its status and detail. -/
inductive HttpResponse where
  | ok (status : Nat) (message : String)
  | httpError (status : Nat) (detail : String)
deriving DecidableEq

/-- The numeric status of a response. -/
def HttpResponse.status : HttpResponse → Nat
  | .ok s _ => s
  | .httpError s _ => s

/-- Result of one webhook call: the HTTP response, the in-memory cursor
dict afterwards, and the bundles successfully handed to the Processor in
order. -/
structure WebhookResult where
  response : HttpResponse
  state : StrDict
  submitted : List Submission
deriving DecidableEq

/-- The per-commit loop of the webhook handler (webhook.py lines 105-148):
skip a commit with an untruthy id, skip a commit equal to the stored
cursor, otherwise build the RID and contents and submit; a RID
construction error or a Processor error (the handleOk oracle) skips just
that commit.  Returns the successful submissions in order. -/
def processWebhookCommits (handleOk : String → Bool) (st : StrDict)
    (repo_full_name repo_owner repo_name : String) :
    List WCommit → List Submission
  | [] => []
  | c :: rest =>
    let restSubs := processWebhookCommits handleOk st repo_full_name repo_owner repo_name rest
    match truthyVal c.id with
    | none => restSubs
    | some sha =>
      if truthyVal (dictGet st repo_full_name) = some sha then restSubs
      else
        match mkGithubCommit repo_owner repo_name sha with
        | none => restSubs
        | some rid =>
          if handleOk sha then (rid, webhookContents c sha) :: restSubs else restSubs

/-- The state-update block after the per-commit loop (webhook.py
lines 150-162): update only when at least one new commit was processed and
the candidate sha is truthy and differs from the stored one. -/
def webhookStateUpdate (st : StrDict) (rfn : String) (tip : Option String)
    (subs : List Submission) : StrDict :=
  if subs.isEmpty then st
  else
    match truthyVal tip with
    | some sha => if dictGet st rfn ≠ some sha then dictSet st rfn sha else st
    | none => st

/-- The webhook endpoint github_webhook (webhook.py lines 40-173).  The
route decorator fixes the success status of every returned dict at 202.
The signature header is accepted but never inspected: the call to
verify_signature at line 52 is commented out.  The handleOk oracle models
whether the Processor raises for a given commit sha. -/
def github_webhook (monitored : List String) (handleOk : String → Bool)
    (st : StrDict) (x_github_event : String) (x_hub_signature_256 : String)
    (payload : Payload) : WebhookResult :=
  if x_github_event = "ping" then ⟨.ok 202 "Pong!", st, []⟩
  else if x_github_event ≠ "push" then
    ⟨.ok 202 ("Ignoring event type: " ++ x_github_event), st, []⟩
  else
    match truthyVal (repoFields payload).full_name,
        truthyVal (pyOr (repoFields payload).owner.login (repoFields payload).owner.name),
        truthyVal (repoFields payload).name with
    | some rfn, some rown, some rname =>
      if rfn ∉ monitored then
        ⟨.ok 202 ("Repository " ++ rfn ++ " not monitored"), st, []⟩
      else if payload.commits.isEmpty ∧ payload.head_commit = none then
        ⟨.ok 202 "No commit data found in push event", st, []⟩
      else
        match selectCandidates payload.commits payload.head_commit with
        | .noProcessable => ⟨.ok 202 "No processable commit data", st, []⟩
        | .chosen cands tip =>
          ⟨.ok 202 "Webhook processed successfully",
            webhookStateUpdate st rfn tip (processWebhookCommits handleOk st rfn rown rname cands),
            processWebhookCommits handleOk st rfn rown rname cands⟩
    | _, _, _ => ⟨.httpError 400 "Missing repository information in payload", st, []⟩

/-- verify_signature (webhook.py lines 18-37), the function the endpoint
no longer calls: with a truthy configured secret it recomputes the HMAC
hex digest of the raw body (the hmacSha256Hex oracle stands for the
hmac-sha256 primitive) and raises a 403 HTTPException when the sha256=
header does not match; none means the check passes or is skipped. -/
def verify_signature (hmacSha256Hex : String → String → String)
    (secret : Option String) (body x_hub_signature_256 : String) :
    Option (Nat × String) :=
  match truthyVal secret with
  | none => none
  | some s =>
    let expected := "sha256=" ++ hmacSha256Hex s body
    if expected ≠ x_hub_signature_256 then some (403, "Invalid signature") else none

/-- An author or committer object of a provider history commit
(backfill.py lines 72-83); the date field already carries the isoformat
rendering applied when a date is present. -/
structure GhPerson where
  name : Option String
  email : Option String
  date : Option String
deriving DecidableEq

/-- One commit record of the provider history feed, at the attributes the
backfill reads. -/
structure GhCommit where
  sha : String
  message : String
  author : Option GhPerson
  committer : Option GhPerson
  html_url : String
  parents : List String
deriving DecidableEq

/-- The contents dict built for one backfill commit (backfill.py
lines 75-86), substituting None for any absent author or committer
sub-field. -/
def backfillContents (c : GhCommit) : CommitContents :=
  { sha := c.sha
    message := some c.message
    author_name := match c.author with | some a => a.name | none => none
    author_email := match c.author with | some a => a.email | none => none
    author_date := match c.author with | some a => a.date | none => none
    committer_name := match c.committer with | some k => k.name | none => none
    committer_email := match c.committer with | some k => k.email | none => none
    committer_date := match c.committer with | some k => k.date | none => none
    html_url := some c.html_url
    parents := c.parents }

/-- Outcome of requesting one repository from the provider: the history
newest-first, the distinguished rate-limit error, a provider API error, or
any other unexpected error (backfill.py lines 102-111). -/
inductive FetchResult where
  | ok (history : List GhCommit)
  | rateLimited
  | apiError
  | unexpectedError

/-- The external collaborators of the backfill: the provider history query
per repository full name, and whether the Processor accepts a given
(repository, sha) submission without raising. -/
structure BackfillEnv where
  fetch : String → FetchResult
  handleOk : String → String → Bool

/-- Python str.split on a single separator character, over the character
list of the string. -/
def splitCharsOn (sep : Char) : List Char → List (List Char)
  | [] => [[]]
  | c :: rest =>
    if c = sep then [] :: splitCharsOn sep rest
    else
      match splitCharsOn sep rest with
      | h :: t => (c :: h) :: t
      | [] => [[c]]

/-- Python unpacking of repo_full_name.split of the separator into owner
and repo (backfill.py line 37): exactly two parts, else ValueError. -/
def splitRepoName (r : String) : Option (String × String) :=
  match (splitCharsOn '/' r.toList).map (fun l => String.mk l) with
  | [a, b] => some (a, b)
  | _ => none

/-- The newest-first scan loop (backfill.py lines 49-62): buffer commits
until one matches the truthy stored cursor, discarding that commit and all
older ones; with no truthy cursor, buffer the whole history. -/
def bufferNewCommits (lastSha : Option String) : List GhCommit → List GhCommit
  | [] => []
  | c :: rest =>
    match lastSha with
    | some s => if c.sha = s then [] else c :: bufferNewCommits (some s) rest
    | none => c :: bufferNewCommits none rest

/-- One iteration of the oldest-first submission loop (backfill.py
lines 68-95): build the RID (ValueError possible) and contents and hand
the bundle to the Processor; any error skips just this commit. -/
def submitBackfillCommit (env : BackfillEnv) (repoFull owner repoName : String)
    (c : GhCommit) : Option Submission :=
  match mkGithubCommit owner repoName c.sha with
  | none => none
  | some rid => if env.handleOk repoFull c.sha then some (rid, backfillContents c) else none

/-- The oldest-first submission loop over the reversed buffer: the
successful submissions in order, and the sha of the last successful one
(newest_sha_processed_in_repo). -/
def processBufferedCommits (env : BackfillEnv) (repoFull owner repoName : String) :
    List GhCommit → List Submission × Option String
  | [] => ([], none)
  | c :: rest =>
    let tail := processBufferedCommits env repoFull owner repoName rest
    match submitBackfillCommit env repoFull owner repoName c with
    | some sub => (sub :: tail.1, some (tail.2.getD c.sha))
    | none => tail

/-- Outcome of one repository inside the backfill loop: a completed pass
with its submissions and newest processed sha, an abort of the whole run
on the rate-limit error, or a skip of just this repository on any other
error. -/
inductive RepoOutcome where
  | done (subs : List Submission) (newest : Option String)
  | rateLimitAbort
  | skipped
deriving DecidableEq

/-- The body of the per-repository loop (backfill.py lines 35-111). -/
def backfillRepo (env : BackfillEnv) (cur : StrDict) (repoFull : String) : RepoOutcome :=
  match splitRepoName repoFull with
  | none => .skipped
  | some (owner, repoName) =>
    match env.fetch repoFull with
    | .rateLimited => .rateLimitAbort
    | .apiError => .skipped
    | .unexpectedError => .skipped
    | .ok history =>
      let lastSha := truthyVal (dictGet cur repoFull)
      let buffered := bufferNewCommits lastSha history
      let result := processBufferedCommits env repoFull owner repoName buffered.reverse
      .done result.1 result.2

/-- Accumulated effect of the backfill loop: the repositories whose loop
body ran, the submissions in order tagged by repository, the
newest_sha_processed_overall_map, and whether the run aborted on a rate
limit. -/
structure BackfillRun where
  attempted : List String
  submissions : List (String × Submission)
  newestMap : StrDict
  aborted : Bool

/-- One step of the per-repository loop; after a rate-limit abort no
further repository is touched. -/
def backfillStep (env : BackfillEnv) (cur : StrDict) (acc : BackfillRun)
    (r : String) : BackfillRun :=
  if acc.aborted then acc
  else
    match backfillRepo env cur r with
    | .rateLimitAbort =>
      ⟨acc.attempted ++ [r], acc.submissions, acc.newestMap, true⟩
    | .skipped =>
      ⟨acc.attempted ++ [r], acc.submissions, acc.newestMap, false⟩
    | .done subs newest =>
      ⟨acc.attempted ++ [r],
        acc.submissions ++ subs.map (fun s => (r, s)),
        (match newest with
          | some n => dictSet acc.newestMap r n
          | none => acc.newestMap),
        false⟩

/-- The whole per-repository loop of perform_backfill. -/
def backfillScan (env : BackfillEnv) (cur : StrDict) (repos : List String) : BackfillRun :=
  repos.foldl (backfillStep env cur) ⟨[], [], [], false⟩

/-- The state-persist loop after the scan (backfill.py lines 113-120):
skipped entirely when the run aborted on a rate limit (the early return at
line 105); otherwise each newest sha differing from the pre-run state copy
is written through update_state_file. -/
def persistNewest (state0 : StrDict) (run : BackfillRun) : StrDict :=
  if run.aborted then state0
  else
    run.newestMap.foldl
      (fun st p => if some p.2 ≠ dictGet state0 p.1 then dictSet st p.1 p.2 else st)
      state0

/-- perform_backfill (backfill.py lines 19-125) over the monitored
repository list and the in-memory cursor state at the start of the run:
the scan outcome and the in-memory cursor state after the run. -/
def perform_backfill (env : BackfillEnv) (repos : List String) (state0 : StrDict) :
    BackfillRun × StrDict :=
  let run := backfillScan env state0 repos
  (run, persistNewest state0 run)

/-- A resource type of the overlay network: the node-discovery type
KoiNetNode or the commit type GithubCommit. -/
inductive RidType where
  | koiNetNode
  | githubCommit
deriving DecidableEq

/-- The declared capability set of a peer, at the field the handlers read:
the event types its profile provides (profile.provides.event). -/
structure PeerProfile where
  providesEvent : List RidType
deriving DecidableEq

/-- An edge-proposal bundle handed to the Processor
(generate_edge_bundle): source node, target node and the resource types
the edge covers. -/
structure EdgeBundle where
  source : String
  target : String
  ridTypes : List RidType
deriving DecidableEq

/-- The normalized event type of a knowledge object. -/
inductive KoiEventType where
  | new
  | update
  | forget
deriving DecidableEq

/-- The collaborators of coordinator_contact: this node identity, the
local cache membership test, and the outcome of the synchronous
fetch_rids peer-inventory query (none models a raised error or an absent
payload, which the handler treats like an empty one). -/
structure ContactEnv where
  selfRid : String
  cacheExists : String → Bool
  fetchRids : Option (List String)

/-- Effects of one coordinator_contact run: the edge bundles handed to the
Processor and the identities submitted as fetch-details requests, in
order. -/
structure ContactResult where
  edges : List EdgeBundle
  detailRequests : List String
deriving DecidableEq

/-- coordinator_contact (handlers/github.py lines 19-71): ignore non-NEW
events; discard a peer whose validated profile does not provide the
KoiNetNode event type (or whose profile fails validation, modelled as
profile none); otherwise propose one WEBHOOK edge from the peer to self
covering KoiNetNode, then fetch the peer inventory and hand every returned
identity that is neither self nor already cached to the Processor. -/
def coordinator_contact (env : ContactEnv) (eventType : KoiEventType)
    (peerRid : String) (profile : Option PeerProfile) : ContactResult :=
  if eventType ≠ .new then ⟨[], []⟩
  else
    match profile with
    | none => ⟨[], []⟩
    | some p =>
      if RidType.koiNetNode ∉ p.providesEvent then ⟨[], []⟩
      else
        let edge : EdgeBundle := ⟨peerRid, env.selfRid, [RidType.koiNetNode]⟩
        match env.fetchRids with
        | none => ⟨[edge], []⟩
        | some rids =>
          if rids.isEmpty then ⟨[edge], []⟩
          else ⟨[edge], rids.filter (fun rid => rid != env.selfRid && !(env.cacheExists rid))⟩

/-- propose_github_commit_edge_to_coordinator (handlers/github.py
lines 112-134), the Final-phase handler: on a NEW event, when the
post-processing graph neighbours are exactly the peer just processed,
propose one WEBHOOK edge from self to the peer covering GithubCommit.
The peer profile is not consulted. -/
def propose_github_commit_edge_to_coordinator (selfRid : String)
    (eventType : KoiEventType) (peerRid : String) (knownPeers : List String) :
    List EdgeBundle :=
  if eventType ≠ .new then []
  else if knownPeers = [peerRid] then [⟨selfRid, peerRid, [RidType.githubCommit]⟩]
  else []

/-- All edge bundles proposed while processing one peer-discovery event:
the Network-phase coordinator_contact edges followed by the Final-phase
coordinator heuristic edge, evaluated against the post-processing graph
neighbours. -/
def discoveryEdges (env : ContactEnv) (eventType : KoiEventType) (peerRid : String)
    (profile : Option PeerProfile) (knownPeersAfter : List String) : List EdgeBundle :=
  (coordinator_contact env eventType peerRid profile).edges ++
    propose_github_commit_edge_to_coordinator env.selfRid eventType peerRid knownPeersAfter

/-- A Python value json.load can hand back for the state file: a JSON
object of string pairs, or a well-formed JSON value of any other shape. -/
inductive PyJson where
  | obj (entries : StrDict)
  | arr (elems : List String)
deriving DecidableEq

/-- Outcome of opening and json-decoding the state file: a decoded value,
the file-not-found error, a JSON syntax error, or any other error
(config.py lines 77-89). -/
inductive StateFileRead where
  | ok (value : PyJson)
  | fileNotFound
  | jsonDecodeError
  | otherError
deriving DecidableEq

/-- load_state (config.py lines 74-89): any caught error leaves the empty
dict; a successfully decoded value is installed as-is, whatever its
shape. -/
def load_state : StateFileRead → PyJson
  | .ok v => v
  | .fileNotFound => .obj []
  | .jsonDecodeError => .obj []
  | .otherError => .obj []

/-- Result of update_state_file: the in-memory dict afterwards and the
mapping durably written, none when the write failed. -/
structure StateWriteResult where
  memory : StrDict
  persisted : Option StrDict
deriving DecidableEq

/-- update_state_file (config.py lines 91-105): the in-memory dict is
updated first; the file write may fail (the writeOk flag), which is caught
and logged, never raised to the caller. -/
def update_state_file (writeOk : Bool) (st : StrDict) (repoName lastSha : String) :
    StateWriteResult :=
  let st2 := dictSet st repoName lastSha
  ⟨st2, if writeOk then some st2 else none⟩

/-- A filesystem path as its list of components. -/
abbrev FsPath := List String

/-- A filesystem at the granularity the startup code touches: the existing
directories and the existing files. -/
structure FileSystem where
  dirs : List FsPath
  files : List FsPath
deriving DecidableEq

/-- The identity directory of the sensor node (core.py line 15). -/
def identityDirPath : FsPath := [".koi", "sensor"]

/-- The RID cache directory of the sensor node (core.py line 16). -/
def cacheDirPath : FsPath := [".koi", "sensor", "rid_cache_sensor"]

/-- Whether a path is the directory d or lies below it. -/
def underDir (d p : FsPath) : Bool := d.isPrefixOf p

/-- shutil.rmtree with ignore_errors: remove the directory and everything
below it, succeeding even when it does not exist. -/
def rmtreeFs (d : FsPath) (fs : FileSystem) : FileSystem :=
  ⟨fs.dirs.filter (fun p => !(underDir d p)), fs.files.filter (fun p => !(underDir d p))⟩

/-- os.makedirs with exist_ok: ensure the directory exists; files are
untouched. -/
def makedirsFs (d : FsPath) (fs : FileSystem) : FileSystem :=
  ⟨if d ∈ fs.dirs then fs.dirs else fs.dirs ++ [d], fs.files⟩

/-- The module-level startup of core.py lines 17-23: remove the identity
directory and the cache directory, then recreate both. -/
def sensorStartupDirs (fs : FileSystem) : FileSystem :=
  makedirsFs cacheDirPath (makedirsFs identityDirPath
    (rmtreeFs cacheDirPath (rmtreeFs identityDirPath fs)))

/-- The files below the RID cache directory. -/
def cacheFiles (fs : FileSystem) : List FsPath :=
  fs.files.filter (underDir cacheDirPath)

/-- Cache.exists backed by the filesystem: the cache holds an identity
precisely when its cache file exists, where ridFile places each identity
below the cache directory. -/
def fsCacheExists (fs : FileSystem) (ridFile : String → FsPath) (rid : String) : Bool :=
  decide (ridFile rid ∈ cacheFiles fs)

theorem dictGet_dictSet_self (d : StrDict) (k v : String) :
    dictGet (dictSet d k v) k = some v := by
  induction d with
  | nil => simp [dictSet, dictGet]
  | cons p rest ih =>
    by_cases h : p.1 = k
    · simp [dictSet, dictGet, h]
    · simp [dictSet, dictGet, h, ih]

theorem dictGet_dictSet_ne (d : StrDict) (k v k2 : String) (h : k2 ≠ k) :
    dictGet (dictSet d k v) k2 = dictGet d k2 := by
  have hk : ¬(k = k2) := fun hh => h hh.symm
  induction d with
  | nil => simp [dictSet, dictGet, hk]
  | cons p rest ih =>
    by_cases hp : p.1 = k
    · simp [dictSet, dictGet, hp, hk]
    · by_cases hp2 : p.1 = k2
      · simp [dictSet, dictGet, hp, hp2, h]
      · simp [dictSet, dictGet, hp, hp2, ih]

theorem mem_dictSet (d : StrDict) (k v : String) (p : String × String)
    (h : p ∈ dictSet d k v) : p ∈ d ∨ p = (k, v) := by
  induction d with
  | nil => simp [dictSet] at h; simp [h]
  | cons q rest ih =>
    by_cases hq : q.1 = k
    · simp only [dictSet, hq, if_true, List.mem_cons] at h
      rcases h with h | h
      · exact Or.inr h
      · exact Or.inl (List.mem_cons_of_mem q h)
    · simp only [dictSet, hq, if_false, List.mem_cons] at h
      rcases h with h | h
      · exact Or.inl (h ▸ List.mem_cons_self q rest)
      · rcases ih h with h2 | h2
        · exact Or.inl (List.mem_cons_of_mem q h2)
        · exact Or.inr h2

theorem truthyVal_eq_none_iff (o : Option String) :
    truthyVal o = none ↔ pyTruthy o = false := by
  cases o with
  | none => simp [truthyVal, pyTruthy]
  | some s =>
    by_cases h : s = ""
    · simp [truthyVal, pyTruthy, h]
    · simp [truthyVal, pyTruthy, h]

theorem truthyVal_eq_some (o : Option String) (s : String) (h : truthyVal o = some s) :
    pyTruthy o = true := by
  cases o with
  | none => simp [truthyVal] at h
  | some t =>
    by_cases ht : t = ""
    · simp [truthyVal, ht] at h
    · simp [pyTruthy, ht]

theorem persist_fold_changes (state0 : StrDict) (ps : List (String × String)) :
    ∀ (st : StrDict) (r : String),
      dictGet (ps.foldl
        (fun st p => if some p.2 ≠ dictGet state0 p.1 then dictSet st p.1 p.2 else st)
        st) r = dictGet st r ∨
      ∃ v, (r, v) ∈ ps ∧
        dictGet (ps.foldl
          (fun st p => if some p.2 ≠ dictGet state0 p.1 then dictSet st p.1 p.2 else st)
          st) r = some v := by
  induction ps with
  | nil => intro st r; exact Or.inl rfl
  | cons p rest ih =>
    intro st r
    simp only [List.foldl_cons]
    rcases ih (if some p.2 ≠ dictGet state0 p.1 then dictSet st p.1 p.2 else st) r with h | h
    · rw [h]
      by_cases hcond : some p.2 ≠ dictGet state0 p.1
      · rw [if_pos hcond]
        by_cases hk : r = p.1
        · subst hk
          exact Or.inr ⟨p.2, List.mem_cons_self p rest, dictGet_dictSet_self st p.1 p.2⟩
        · exact Or.inl (dictGet_dictSet_ne st p.1 p.2 r hk)
      · rw [if_neg hcond]
        exact Or.inl rfl
    · rcases h with ⟨v, hv, hg⟩
      exact Or.inr ⟨v, List.mem_cons_of_mem p hv, hg⟩

theorem mkGithubCommit_sha (owner repo sha : String) (rid : GithubCommitRid)
    (h : mkGithubCommit owner repo sha = some rid) : rid.sha = sha := by
  unfold mkGithubCommit at h
  split at h
  · exact absurd h (by simp)
  · split at h
    · exact absurd h (by simp)
    · simp only [Option.some.injEq] at h
      rw [← h]

theorem submitBackfillCommit_sha (env : BackfillEnv) (repoFull owner repoName : String)
    (c : GhCommit) (sub : Submission)
    (h : submitBackfillCommit env repoFull owner repoName c = some sub) :
    sub.1.sha = c.sha := by
  unfold submitBackfillCommit at h
  cases hrid : mkGithubCommit owner repoName c.sha with
  | none => rw [hrid] at h; exact absurd h (by simp)
  | some rid =>
    rw [hrid] at h
    by_cases h3 : env.handleOk repoFull c.sha = true
    · simp only [h3, if_true, Option.some.injEq] at h
      rw [← h]
      exact mkGithubCommit_sha owner repoName c.sha rid hrid
    · simp [h3] at h

theorem processBufferedCommits_newest (env : BackfillEnv)
    (repoFull owner repoName : String) (cs : List GhCommit) (n : String)
    (h : (processBufferedCommits env repoFull owner repoName cs).2 = some n) :
    ∃ sub ∈ (processBufferedCommits env repoFull owner repoName cs).1,
      sub.1.sha = n := by
  induction cs with
  | nil => simp [processBufferedCommits] at h
  | cons c rest ih =>
    simp only [processBufferedCommits] at h ⊢
    cases hsub : submitBackfillCommit env repoFull owner repoName c with
    | none =>
      rw [hsub] at h
      rcases ih h with ⟨sub, hm, hs⟩
      exact ⟨sub, hm, hs⟩
    | some sub =>
      rw [hsub] at h
      simp only at h
      cases htail : (processBufferedCommits env repoFull owner repoName rest).2 with
      | none =>
        rw [htail] at h
        simp [Option.getD] at h
        refine ⟨sub, List.mem_cons_self sub _, ?_⟩
        rw [submitBackfillCommit_sha env repoFull owner repoName c sub hsub, h]
      | some m =>
        rw [htail] at h
        simp [Option.getD] at h
        rcases ih (htail.trans (by rw [h])) with ⟨sub2, hm, hs⟩
        exact ⟨sub2, List.mem_cons_of_mem sub hm, hs⟩

/-- The invariant relating the newest-sha map to the successful
submissions of a partial backfill run. -/
def NewestFromSubmissions (acc : BackfillRun) : Prop :=
  ∀ r v, (r, v) ∈ acc.newestMap → ∃ sub, (r, sub) ∈ acc.submissions ∧ sub.1.sha = v

theorem backfillStep_invariant (env : BackfillEnv) (cur : StrDict)
    (acc : BackfillRun) (r : String) (hinv : NewestFromSubmissions acc) :
    NewestFromSubmissions (backfillStep env cur acc r) := by
  unfold backfillStep
  by_cases hab : acc.aborted = true
  · simp only [hab, if_true]; exact hinv
  · simp only [hab, if_false]
    cases hrepo : backfillRepo env cur r with
    | rateLimitAbort =>
      intro r2 v h
      rcases hinv r2 v h with ⟨sub, hm, hs⟩
      exact ⟨sub, hm, hs⟩
    | skipped =>
      intro r2 v h
      rcases hinv r2 v h with ⟨sub, hm, hs⟩
      exact ⟨sub, hm, hs⟩
    | done subs newest =>
      intro r2 v h
      simp only at h
      cases hnw : newest with
      | none =>
        rw [hnw] at h
        rcases hinv r2 v h with ⟨sub, hm, hs⟩
        exact ⟨sub, List.mem_append_left _ hm, hs⟩
      | some n =>
        rw [hnw] at h
        rcases mem_dictSet acc.newestMap r n (r2, v) h with h2 | h2
        · rcases hinv r2 v h2 with ⟨sub, hm, hs⟩
          exact ⟨sub, List.mem_append_left _ hm, hs⟩
        · have hr2 : r2 = r := congrArg Prod.fst h2
          have hv : v = n := congrArg Prod.snd h2
          have hdone := hrepo
          unfold backfillRepo at hdone
          rcases hsplit : splitRepoName r with _ | ⟨owner, repoName⟩
          · rw [hsplit] at hdone; exact absurd hdone (by simp)
          · rw [hsplit] at hdone
            cases hf : env.fetch r with
            | ok history =>
              rw [hf] at hdone
              simp only [RepoOutcome.done.injEq] at hdone
              have hsubs := hdone.1
              have hnewest := hdone.2
              rw [hnw] at hnewest
              rcases processBufferedCommits_newest env r owner repoName
                  ((bufferNewCommits (truthyVal (dictGet cur r)) history).reverse) n
                  hnewest with ⟨sub, hm, hs⟩
              refine ⟨sub, List.mem_append_right _ ?_, by rw [hv]; exact hs⟩
              rw [hr2, ← hsubs]
              exact List.mem_map_of_mem (fun s => (r, s)) hm
            | rateLimited => rw [hf] at hdone; exact absurd hdone (by simp)
            | apiError => rw [hf] at hdone; exact absurd hdone (by simp)
            | unexpectedError => rw [hf] at hdone; exact absurd hdone (by simp)

theorem backfillScan_invariant (env : BackfillEnv) (cur : StrDict)
    (repos : List String) :
    ∀ acc, NewestFromSubmissions acc →
      NewestFromSubmissions (repos.foldl (backfillStep env cur) acc) := by
  induction repos with
  | nil => intro acc h; exact h
  | cons r rest ih =>
    intro acc h
    simp only [List.foldl_cons]
    exact ih (backfillStep env cur acc r) (backfillStep_invariant env cur acc r h)

theorem backfillStep_of_aborted (env : BackfillEnv) (cur : StrDict)
    (acc : BackfillRun) (r : String) (h : acc.aborted = true) :
    backfillStep env cur acc r = acc := by
  unfold backfillStep
  simp [h]

theorem foldl_backfillStep_of_aborted (env : BackfillEnv) (cur : StrDict)
    (repos : List String) :
    ∀ acc : BackfillRun, acc.aborted = true →
      repos.foldl (backfillStep env cur) acc = acc := by
  induction repos with
  | nil => intro acc _; rfl
  | cons r rest ih =>
    intro acc h
    simp only [List.foldl_cons]
    rw [backfillStep_of_aborted env cur acc r h]
    exact ih acc h

theorem foldl_backfillStep_no_ratelimit (env : BackfillEnv) (cur : StrDict)
    (repos : List String)
    (hnr : ∀ x ∈ repos, backfillRepo env cur x ≠ .rateLimitAbort) :
    ∀ acc : BackfillRun, acc.aborted = false →
      (repos.foldl (backfillStep env cur) acc).aborted = false ∧
      (repos.foldl (backfillStep env cur) acc).attempted = acc.attempted ++ repos := by
  induction repos with
  | nil => intro acc h; exact ⟨h, by simp⟩
  | cons r rest ih =>
    intro acc h
    have hr : backfillRepo env cur r ≠ .rateLimitAbort :=
      hnr r (List.mem_cons_self r rest)
    have hrest : ∀ x ∈ rest, backfillRepo env cur x ≠ .rateLimitAbort :=
      fun x hx => hnr x (List.mem_cons_of_mem r hx)
    have hstep : (backfillStep env cur acc r).aborted = false ∧
        (backfillStep env cur acc r).attempted = acc.attempted ++ [r] := by
      unfold backfillStep
      rw [h]
      simp only [Bool.false_eq_true, if_false]
      cases hrepo : backfillRepo env cur r with
      | rateLimitAbort => exact absurd hrepo hr
      | skipped => exact ⟨rfl, rfl⟩
      | done subs newest => exact ⟨rfl, rfl⟩
    simp only [List.foldl_cons]
    rcases ih hrest (backfillStep env cur acc r) hstep.1 with ⟨h1, h2⟩
    refine ⟨h1, ?_⟩
    rw [h2, hstep.2, List.append_assoc]
    rfl

theorem backfillScan_ratelimit (env : BackfillEnv) (cur : StrDict)
    (xs : List String) (r : String) (ys : List String)
    (hnr : ∀ x ∈ xs, backfillRepo env cur x ≠ .rateLimitAbort)
    (hrl : backfillRepo env cur r = .rateLimitAbort) :
    (backfillScan env cur (xs ++ r :: ys)).attempted = xs ++ [r] ∧
    (backfillScan env cur (xs ++ r :: ys)).aborted = true := by
  unfold backfillScan
  rw [List.foldl_append]
  rcases foldl_backfillStep_no_ratelimit env cur xs hnr ⟨[], [], [], false⟩ rfl with ⟨h1, h2⟩
  set acc1 := xs.foldl (backfillStep env cur) ⟨[], [], [], false⟩ with hacc1
  have hstep : (backfillStep env cur acc1 r) =
      ⟨acc1.attempted ++ [r], acc1.submissions, acc1.newestMap, true⟩ := by
    unfold backfillStep
    rw [h1]
    simp only [Bool.false_eq_true, if_false]
    rw [hrl]
  simp only [List.foldl_cons]
  rw [hstep]
  rw [foldl_backfillStep_of_aborted env cur ys _ rfl]
  refine ⟨?_, rfl⟩
  simp only [h2]
  simp

theorem webhookStateUpdate_cases (st : StrDict) (rfn : String) (tip : Option String)
    (subs : List Submission) :
    webhookStateUpdate st rfn tip subs = st ∨
    (subs ≠ [] ∧ ∃ sha, truthyVal tip = some sha ∧ dictGet st rfn ≠ some sha ∧
      webhookStateUpdate st rfn tip subs = dictSet st rfn sha) := by
  unfold webhookStateUpdate
  split
  · exact Or.inl rfl
  next hempty =>
    split
    next sha htip =>
      split
      next hne =>
        refine Or.inr ⟨?_, sha, htip, hne, rfl⟩
        intro hnil
        rw [hnil] at hempty
        exact hempty rfl
      next hne => exact Or.inl rfl
    next htip => exact Or.inl rfl

theorem webhook_state_cases (mon : List String) (hOk : String → Bool) (st : StrDict)
    (ev sig : String) (payload : Payload) :
    (github_webhook mon hOk st ev sig payload).state = st ∨
    ((github_webhook mon hOk st ev sig payload).submitted ≠ [] ∧
      ∃ rfn sha, selectedTip payload = some sha ∧ dictGet st rfn ≠ some sha ∧
        (github_webhook mon hOk st ev sig payload).state = dictSet st rfn sha) := by
  unfold github_webhook
  split
  · exact Or.inl rfl
  split
  · exact Or.inl rfl
  split
  next rfn rown rname hfn hown hname =>
    split
    · exact Or.inl rfl
    split
    · exact Or.inl rfl
    split
    next hsel => exact Or.inl rfl
    next cands tip hsel =>
      rcases webhookStateUpdate_cases st rfn tip
          (processWebhookCommits hOk st rfn rown rname cands) with h | h
      · exact Or.inl h
      · rcases h with ⟨hne, sha, htip, hget, hupd⟩
        refine Or.inr ⟨hne, rfn, sha, ?_, hget, hupd⟩
        unfold selectedTip
        rw [hsel]
        exact htip
  all_goals exact Or.inl rfl

/-- A provider history commit carrying only its sha. -/
def ghCommitOf (s : String) : GhCommit := ⟨s, "", none, none, "", []⟩

/-- A webhook commit entry carrying only its id. -/
def wCommitOf (i : String) : WCommit :=
  ⟨some i, none, none, none, ⟨none, none, none⟩, ⟨none, none, none⟩, []⟩

/-- A webhook repository object for the monitored repository o/r. -/
def acmeRepoInfo : RepoInfo := ⟨some "o/r", ⟨some "o", none⟩, some "r"⟩

/-- A push payload for o/r listing two commits and no head commit. -/
def payloadTwoCommits : Payload :=
  ⟨some acmeRepoInfo, [wCommitOf "c1", wCommitOf "c2"], none⟩

/-- A push payload for o/r carrying only a head commit. -/
def payloadHead (i : String) : Payload := ⟨some acmeRepoInfo, [], some (wCommitOf i)⟩

/-- A backfill environment whose provider always returns the history of
the claim C3 scenario and whose Processor always accepts. -/
def envC3 : BackfillEnv :=
  ⟨fun _ => .ok [ghCommitOf "c5", ghCommitOf "c4", ghCommitOf "c3",
      ghCommitOf "a1", ghCommitOf "c1"], fun _ _ => true⟩

/-- A backfill environment whose provider rate-limits the first repository
and would serve the second. -/
def envC4 : BackfillEnv :=
  ⟨fun repo => if repo = "a/one" then .rateLimited else .ok [ghCommitOf "z1"],
    fun _ _ => true⟩

/-- Claim C1, amended: in any backfill run the stored cursor of a
repository changes only to the sha of a commit successfully submitted for
that repository in that run; in the webhook path the cursor changes only
when at least one commit of the notification was successfully submitted,
and then only to the notification's selected tip hash — the tip's own
submission may have failed, and a redelivered older notification may move
the cursor back to an earlier hash. -/
theorem claim_C1_cursor_sources :
    (∀ (env : BackfillEnv) (repos : List String) (state0 : StrDict) (r : String),
        dictGet (perform_backfill env repos state0).2 r ≠ dictGet state0 r →
        ∃ sub, (r, sub) ∈ (perform_backfill env repos state0).1.submissions ∧
          dictGet (perform_backfill env repos state0).2 r = some sub.1.sha) ∧
    (∀ (mon : List String) (hOk : String → Bool) (st : StrDict) (ev sig : String)
        (payload : Payload),
        (github_webhook mon hOk st ev sig payload).state = st ∨
        ((github_webhook mon hOk st ev sig payload).submitted ≠ [] ∧
          ∃ rfn sha, selectedTip payload = some sha ∧
            (github_webhook mon hOk st ev sig payload).state = dictSet st rfn sha)) := by
  constructor
  · intro env repos state0 r h
    have hinv : NewestFromSubmissions (backfillScan env state0 repos) := by
      apply backfillScan_invariant
      intro r2 v2 hm
      exact absurd hm (List.not_mem_nil _)
    by_cases hab : (backfillScan env state0 repos).aborted = true
    · exfalso
      apply h
      show dictGet (persistNewest state0 (backfillScan env state0 repos)) r = dictGet state0 r
      unfold persistNewest
      rw [if_pos hab]
    · have hpn : persistNewest state0 (backfillScan env state0 repos) =
          (backfillScan env state0 repos).newestMap.foldl
            (fun st p => if some p.2 ≠ dictGet state0 p.1 then dictSet st p.1 p.2 else st)
            state0 := by
        unfold persistNewest
        rw [if_neg hab]
      rcases persist_fold_changes state0 (backfillScan env state0 repos).newestMap state0 r
          with h1 | ⟨v, hv, h2⟩
      · exfalso
        apply h
        show dictGet (persistNewest state0 (backfillScan env state0 repos)) r = dictGet state0 r
        rw [hpn]
        exact h1
      · rcases hinv r v hv with ⟨sub, hm, hs⟩
        refine ⟨sub, hm, ?_⟩
        show dictGet (persistNewest state0 (backfillScan env state0 repos)) r = some sub.1.sha
        rw [hpn, h2, hs]
  · intro mon hOk st ev sig payload
    rcases webhook_state_cases mon hOk st ev sig payload
        with h | ⟨hne, rfn, sha, htip, _, hupd⟩
    · exact Or.inl h
    · exact Or.inr ⟨hne, rfn, sha, htip, hupd⟩

/-- Witness for claim C1 at the concrete C3 backfill scenario, where the
cursor of acme/widgets moves from a1 to c5. -/
theorem claim_C1_witness :
    ∃ sub, ("acme/widgets", sub) ∈
        (perform_backfill envC3 ["acme/widgets"] [("acme/widgets", "a1")]).1.submissions ∧
      dictGet (perform_backfill envC3 ["acme/widgets"] [("acme/widgets", "a1")]).2
        "acme/widgets" = some sub.1.sha :=
  claim_C1_cursor_sources.1 envC3 ["acme/widgets"] [("acme/widgets", "a1")]
    "acme/widgets" (by decide)

/-- Counterexample to claim C1 as stated.  First scenario: a push for
monitored o/r with stored cursor old and commits c1 then c2, where the
Processor accepts c1 and raises on c2: the cursor is set to c2 although
the submission of c2 did not succeed.  Second scenario: three pushes whose
head commits are a, then b, then a redelivery of a: the cursor ends back
at a after a had been superseded by b. -/
theorem claim_C1_counterexample :
    ((github_webhook ["o/r"] (fun s => s != "c2") [("o/r", "old")] "push" "sig"
        payloadTwoCommits).state = [("o/r", "c2")] ∧
      (github_webhook ["o/r"] (fun s => s != "c2") [("o/r", "old")] "push" "sig"
        payloadTwoCommits).submitted.map (fun p => p.1.sha) = ["c1"]) ∧
    ((github_webhook ["o/r"] (fun _ => true) [] "push" "sig"
        (payloadHead "a")).state = [("o/r", "a")] ∧
      (github_webhook ["o/r"] (fun _ => true) [("o/r", "a")] "push" "sig"
        (payloadHead "b")).state = [("o/r", "b")] ∧
      (github_webhook ["o/r"] (fun _ => true) [("o/r", "b")] "push" "sig"
        (payloadHead "a")).state = [("o/r", "a")]) := by
  decide

/-- Claim C2: the endpoint never rejects a tampered signature.  The
handler's outcome is independent of the signature header for every input;
at a concrete forged-signature push the request is accepted with 202 and
the commit is submitted; the never-invoked verify_signature would have
raised the 403 on the same mismatch. -/
theorem claim_C2_signature_never_checked :
    (∀ (mon : List String) (hOk : String → Bool) (st : StrDict)
        (ev sig1 sig2 : String) (payload : Payload),
        github_webhook mon hOk st ev sig1 payload =
          github_webhook mon hOk st ev sig2 payload) ∧
    ((github_webhook ["o/r"] (fun _ => true) [] "push" "sha256=forged"
        (payloadHead "a")).response = .ok 202 "Webhook processed successfully" ∧
      (github_webhook ["o/r"] (fun _ => true) [] "push" "sha256=forged"
        (payloadHead "a")).submitted.map (fun p => p.1.sha) = ["a"]) ∧
    verify_signature (fun _ _ => "0f0f") (some "hooksecret") "tampered-body"
      "sha256=forged" = some (403, "Invalid signature") :=
  ⟨fun _ _ _ _ _ _ _ => rfl, by decide, by decide⟩

/-- Claim C3: with stored cursor a1 and provider history c5,c4,c3,a1,c1
newest-first, the backfill buffers until the cursor, submits exactly c3,
c4, c5 oldest-first, never submits a1 or c1, and leaves the cursor at
c5. -/
theorem claim_C3_backfill_scenario :
    bufferNewCommits (some "a1")
        [ghCommitOf "c5", ghCommitOf "c4", ghCommitOf "c3", ghCommitOf "a1",
          ghCommitOf "c1"] =
      [ghCommitOf "c5", ghCommitOf "c4", ghCommitOf "c3"] ∧
    ((perform_backfill envC3 ["acme/widgets"] [("acme/widgets", "a1")]).1.submissions.map
        (fun p => p.2.1.sha)) = ["c3", "c4", "c5"] ∧
    "a1" ∉ ((perform_backfill envC3 ["acme/widgets"]
        [("acme/widgets", "a1")]).1.submissions.map (fun p => p.2.1.sha)) ∧
    "c1" ∉ ((perform_backfill envC3 ["acme/widgets"]
        [("acme/widgets", "a1")]).1.submissions.map (fun p => p.2.1.sha)) ∧
    dictGet (perform_backfill envC3 ["acme/widgets"] [("acme/widgets", "a1")]).2
      "acme/widgets" = some "c5" := by
  decide

/-- Claim C4: when the provider rate-limits some repository and no earlier
repository did, the run attempts exactly the repositories up to and
including it — none listed after — and the cursor state is left entirely
unchanged, so in particular no cursor is advanced for the repository that
raised the error. -/
theorem claim_C4_ratelimit_aborts (env : BackfillEnv) (state0 : StrDict)
    (xs : List String) (r : String) (ys : List String)
    (hnr : ∀ x ∈ xs, backfillRepo env state0 x ≠ .rateLimitAbort)
    (hrl : backfillRepo env state0 r = .rateLimitAbort) :
    (perform_backfill env (xs ++ r :: ys) state0).1.attempted = xs ++ [r] ∧
    (perform_backfill env (xs ++ r :: ys) state0).2 = state0 := by
  rcases backfillScan_ratelimit env state0 xs r ys hnr hrl with ⟨h1, h2⟩
  refine ⟨h1, ?_⟩
  show persistNewest state0 (backfillScan env state0 (xs ++ r :: ys)) = state0
  unfold persistNewest
  rw [if_pos h2]

/-- Witness for claim C4: two monitored repositories where the first is
rate-limited; only the first is attempted and the state stays empty. -/
theorem claim_C4_witness :
    (perform_backfill envC4 ["a/one", "b/two"] []).1.attempted = ["a/one"] ∧
    (perform_backfill envC4 ["a/one", "b/two"] []).2 = [] :=
  claim_C4_ratelimit_aborts envC4 [] [] "a/one" ["b/two"]
    (fun x hx => absurd hx (List.not_mem_nil x)) (by decide)

/-- Claim C5: a push payload whose head_commit carries a non-empty id
makes exactly that one commit the candidate and its id the state-update
sha; otherwise, with a non-empty commits list, the whole list is the
candidate set and the last entry's id the state-update sha; and the
webhook cursor, when it changes at all, is set precisely to the selected
tip. -/
theorem claim_C5_head_commit_preference :
    (∀ (cs : List WCommit) (hc : WCommit) (i : String), hc.id = some i → i ≠ "" →
        selectCandidates cs (some hc) = .chosen [hc] (some i)) ∧
    (∀ (cs : List WCommit) (hd : Option WCommit),
        (∀ hc, hd = some hc → pyTruthy hc.id = false) → cs ≠ [] →
        selectCandidates cs hd = .chosen cs (lastCommitId cs)) ∧
    (∀ (mon : List String) (hOk : String → Bool) (st : StrDict) (sig : String)
        (payload : Payload),
        (github_webhook mon hOk st "push" sig payload).state = st ∨
        ∃ rfn sha, selectedTip payload = some sha ∧
          (github_webhook mon hOk st "push" sig payload).state = dictSet st rfn sha) := by
  refine ⟨?_, ?_, ?_⟩
  · intro cs hc i hid hne
    have hpt : pyTruthy (some i) = true := by simp [pyTruthy, hne]
    simp [selectCandidates, hid, hpt]
  · intro cs hd hfalse hcs
    cases cs with
    | nil => exact absurd rfl hcs
    | cons c rest =>
      cases hd with
      | none => simp [selectCandidates]
      | some hc =>
        have hf := hfalse hc rfl
        simp [selectCandidates, hf]
  · intro mon hOk st sig payload
    rcases webhook_state_cases mon hOk st "push" sig payload
        with h | ⟨_, rfn, sha, htip, _, hupd⟩
    · exact Or.inl h
    · exact Or.inr ⟨rfn, sha, htip, hupd⟩

/-- Witness for claim C5: a head commit with id h wins over a commits
list, and without a head commit the list and its last id are selected. -/
theorem claim_C5_witness :
    selectCandidates [wCommitOf "x"] (some (wCommitOf "h")) =
      .chosen [wCommitOf "h"] (some "h") ∧
    selectCandidates [wCommitOf "c1", wCommitOf "c2"] none =
      .chosen [wCommitOf "c1", wCommitOf "c2"]
        (lastCommitId [wCommitOf "c1", wCommitOf "c2"]) :=
  ⟨claim_C5_head_commit_preference.1 [wCommitOf "x"] (wCommitOf "h") "h" rfl
      (by decide),
    claim_C5_head_commit_preference.2.1 [wCommitOf "c1", wCommitOf "c2"] none
      (fun hc h => Option.noConfusion h) (by decide)⟩

/-- Counterexample to claim C6 as stated: a non-push, non-ping event is
accepted with the route status 202, not 200. -/
theorem claim_C6_counterexample :
    (github_webhook [] (fun _ => true) [] "pull_request" "sig"
        ⟨none, [], none⟩).response.status = 202 ∧
    (github_webhook [] (fun _ => true) [] "pull_request" "sig"
        ⟨none, [], none⟩).response.status ≠ 200 := by
  decide

/-- Claim C6, amended: a request whose event-type header is neither push
nor ping is accepted with a no-op success response carrying the route
status 202, and a push payload with an untruthy repository full_name,
owner or name is rejected with the 400 client error. -/
theorem claim_C6_event_filter (mon : List String) (hOk : String → Bool)
    (st : StrDict) (sig : String) (payload : Payload) :
    (∀ ev, ev ≠ "push" → ev ≠ "ping" →
        github_webhook mon hOk st ev sig payload =
          ⟨.ok 202 ("Ignoring event type: " ++ ev), st, []⟩) ∧
    ((pyTruthy (repoFields payload).full_name = false ∨
        pyTruthy (pyOr (repoFields payload).owner.login
          (repoFields payload).owner.name) = false ∨
        pyTruthy (repoFields payload).name = false) →
      github_webhook mon hOk st "push" sig payload =
        ⟨.httpError 400 "Missing repository information in payload", st, []⟩) := by
  constructor
  · intro ev hpu hpi
    unfold github_webhook
    rw [if_neg hpi, if_pos hpu]
  · intro hmiss
    unfold github_webhook
    rw [if_neg (by decide : ¬("push" = "ping"))]
    rw [if_neg (by decide : ¬("push" ≠ "push"))]
    split
    next rfn rown rname hfn hown hname =>
      exfalso
      rcases hmiss with hm | hm | hm
      · have ht := truthyVal_eq_some _ rfn hfn
        rw [hm] at ht
        exact Bool.noConfusion ht
      · have ht := truthyVal_eq_some _ rown hown
        rw [hm] at ht
        exact Bool.noConfusion ht
      · have ht := truthyVal_eq_some _ rname hname
        rw [hm] at ht
        exact Bool.noConfusion ht
    all_goals rfl

/-- Witness for claim C6: a concrete issues event is ignored with 202, and
a concrete push payload missing the owner login and name is rejected with
400. -/
theorem claim_C6_witness :
    github_webhook [] (fun _ => true) [] "issues" "sig" ⟨none, [], none⟩ =
      ⟨.ok 202 ("Ignoring event type: " ++ "issues"), [], []⟩ ∧
    github_webhook [] (fun _ => true) [] "push" "sig"
        ⟨some ⟨some "o/r", ⟨none, none⟩, some "r"⟩, [], none⟩ =
      ⟨.httpError 400 "Missing repository information in payload", [], []⟩ :=
  ⟨(claim_C6_event_filter [] (fun _ => true) [] "sig" ⟨none, [], none⟩).1 "issues"
      (by decide) (by decide),
    (claim_C6_event_filter [] (fun _ => true) [] "sig"
      ⟨some ⟨some "o/r", ⟨none, none⟩, some "r"⟩, [], none⟩).2 (by decide)⟩

theorem coordinator_contact_no_profile (env : ContactEnv) (peer : String) :
    coordinator_contact env .new peer none = ⟨[], []⟩ := rfl

theorem coordinator_contact_not_providing (env : ContactEnv) (peer : String)
    (p : PeerProfile) (h : RidType.koiNetNode ∉ p.providesEvent) :
    coordinator_contact env .new peer (some p) = ⟨[], []⟩ := by
  simp [coordinator_contact, h]

theorem coordinator_contact_edges (env : ContactEnv) (peer : String)
    (p : PeerProfile) (h : RidType.koiNetNode ∈ p.providesEvent) :
    (coordinator_contact env .new peer (some p)).edges =
      [⟨peer, env.selfRid, [RidType.koiNetNode]⟩] := by
  cases hf : env.fetchRids with
  | none => simp [coordinator_contact, h, hf]
  | some rids => cases rids <;> simp [coordinator_contact, h, hf]

theorem coordinator_contact_details (env : ContactEnv) (peer : String)
    (p : PeerProfile) (rids : List String)
    (h : RidType.koiNetNode ∈ p.providesEvent) (hf : env.fetchRids = some rids) :
    (coordinator_contact env .new peer (some p)).detailRequests =
      rids.filter (fun rid => rid != env.selfRid && !(env.cacheExists rid)) := by
  cases rids <;> simp [coordinator_contact, h, hf]

/-- Claim C7: a new-peer event for a peer not declaring the node-discovery
type (or with an unreadable profile) is discarded without any edge or
fetch; otherwise exactly one edge from the peer to this node covering the
node-discovery type is proposed, and every inventory identity that is
neither self nor cached is submitted as a fetch-details request. -/
theorem claim_C7_peer_discovery (env : ContactEnv) (peer : String) :
    coordinator_contact env .new peer none = ⟨[], []⟩ ∧
    (∀ p : PeerProfile, RidType.koiNetNode ∉ p.providesEvent →
        coordinator_contact env .new peer (some p) = ⟨[], []⟩) ∧
    (∀ p : PeerProfile, RidType.koiNetNode ∈ p.providesEvent →
        (coordinator_contact env .new peer (some p)).edges =
          [⟨peer, env.selfRid, [RidType.koiNetNode]⟩] ∧
        ∀ rids, env.fetchRids = some rids →
          (coordinator_contact env .new peer (some p)).detailRequests =
            rids.filter (fun rid => rid != env.selfRid && !(env.cacheExists rid))) := by
  refine ⟨coordinator_contact_no_profile env peer, ?_, ?_⟩
  · intro p hmem
    exact coordinator_contact_not_providing env peer p hmem
  · intro p hmem
    exact ⟨coordinator_contact_edges env peer p hmem,
      fun rids hf => coordinator_contact_details env peer p rids hmem hf⟩

/-- A contact environment over a cache holding only the identity cached,
whose inventory query returns self, p2 and cached. -/
def envC7 : ContactEnv := ⟨"self", fun r => r == "cached", some ["self", "p2", "cached"]⟩

/-- Witness for claim C7: a profile without the node-discovery type is
discarded, and a providing profile yields the one discovery edge and a
fetch-details request exactly for the identity that is neither self nor
cached. -/
theorem claim_C7_witness :
    coordinator_contact envC7 .new "peer" (some ⟨[]⟩) = ⟨[], []⟩ ∧
    (coordinator_contact envC7 .new "peer" (some ⟨[RidType.koiNetNode]⟩)).edges =
      [⟨"peer", "self", [RidType.koiNetNode]⟩] ∧
    (coordinator_contact envC7 .new "peer"
        (some ⟨[RidType.koiNetNode]⟩)).detailRequests = ["p2"] := by
  refine ⟨(claim_C7_peer_discovery envC7 "peer").2.1 ⟨[]⟩ (by decide), ?_, ?_⟩
  · exact ((claim_C7_peer_discovery envC7 "peer").2.2 ⟨[RidType.koiNetNode]⟩ (by decide)).1
  · have h := ((claim_C7_peer_discovery envC7 "peer").2.2 ⟨[RidType.koiNetNode]⟩
        (by decide)).2 ["self", "p2", "cached"] rfl
    rw [h]
    rfl

/-- A contact environment for the lone-peer bootstrap scenario: an empty
cache and an empty peer inventory. -/
def envC8 : ContactEnv := ⟨"self", fun _ => false, some []⟩

/-- Counterexample to claim C8 as stated: for a peer declaring only the
node-discovery capability that ends as the lone known peer, processing
yields two edge proposals, one of which covers the commit resource type —
the Final-phase heuristic never consults the capability set. -/
theorem claim_C8_counterexample :
    discoveryEdges envC8 .new "peer" (some ⟨[RidType.koiNetNode]⟩) ["peer"] =
      [⟨"peer", "self", [RidType.koiNetNode]⟩,
        ⟨"self", "peer", [RidType.githubCommit]⟩] ∧
    (discoveryEdges envC8 .new "peer" (some ⟨[RidType.koiNetNode]⟩) ["peer"]).countP
      (fun e => e.ridTypes.contains RidType.githubCommit) = 1 := by
  decide

/-- Claim C8, amended: a peer declaring only the node-discovery capability
receives exactly one discovery edge proposal from coordinator_contact and
no commit-type edge from it; the Final-phase handler proposes a
commit-type edge exactly when the post-processing graph lists that peer as
the only known peer, regardless of the declared capability set. -/
theorem claim_C8_discovery_only_peer (env : ContactEnv) (peer : String)
    (knownPeers : List String) :
    (coordinator_contact env .new peer (some ⟨[RidType.koiNetNode]⟩)).edges =
      [⟨peer, env.selfRid, [RidType.koiNetNode]⟩] ∧
    (∀ e ∈ (coordinator_contact env .new peer (some ⟨[RidType.koiNetNode]⟩)).edges,
        RidType.githubCommit ∉ e.ridTypes) ∧
    propose_github_commit_edge_to_coordinator env.selfRid .new peer knownPeers =
      (if knownPeers = [peer]
        then [⟨env.selfRid, peer, [RidType.githubCommit]⟩] else []) := by
  have hedges := coordinator_contact_edges env peer ⟨[RidType.koiNetNode]⟩
    (List.mem_singleton_self _)
  refine ⟨hedges, ?_, ?_⟩
  · intro e he
    rw [hedges] at he
    rcases List.mem_singleton.mp he with rfl
    simp
  · simp [propose_github_commit_edge_to_coordinator]

/-- Witness for claim C8 at the lone-peer bootstrap environment. -/
theorem claim_C8_witness :
    (coordinator_contact envC8 .new "peer" (some ⟨[RidType.koiNetNode]⟩)).edges =
      [⟨"peer", "self", [RidType.koiNetNode]⟩] ∧
    RidType.githubCommit ∉
      (⟨"peer", "self", [RidType.koiNetNode]⟩ : EdgeBundle).ridTypes ∧
    propose_github_commit_edge_to_coordinator envC8.selfRid .new "peer" ["peer"] =
      [⟨envC8.selfRid, "peer", [RidType.githubCommit]⟩] := by
  have h := claim_C8_discovery_only_peer envC8 "peer" ["peer"]
  refine ⟨h.1, ?_, ?_⟩
  · exact h.2.1 ⟨"peer", "self", [RidType.koiNetNode]⟩
      (by rw [h.1]; exact List.mem_singleton_self _)
  · exact h.2.2.trans (by decide)

/-- Counterexample to claim C9 as stated: a state file holding well-formed
JSON of a non-object shape — corrupted durable storage — is installed
as-is by load_state instead of being replaced by the empty mapping. -/
theorem claim_C9_counterexample :
    load_state (.ok (.arr ["x"])) = .arr ["x"] ∧
    load_state (.ok (.arr ["x"])) ≠ .obj [] := by
  decide

/-- Claim C9, amended: a missing, syntactically invalid or otherwise
unreadable state file loads as the empty mapping, never an error; every
cursor write updates the in-memory mapping to the new hash even when the
durable write fails, the failure being swallowed; a readable file holding
well-formed JSON of the wrong shape, however, is installed as-is. -/
theorem claim_C9_state_store :
    (load_state .fileNotFound = .obj [] ∧ load_state .jsonDecodeError = .obj [] ∧
      load_state .otherError = .obj []) ∧
    (∀ (writeOk : Bool) (st : StrDict) (repo sha : String),
        dictGet (update_state_file writeOk st repo sha).memory repo = some sha) ∧
    (∀ (st : StrDict) (repo sha : String),
        (update_state_file false st repo sha).persisted = none ∧
        (update_state_file true st repo sha).persisted =
          some (update_state_file true st repo sha).memory) := by
  refine ⟨⟨rfl, rfl, rfl⟩, ?_, ?_⟩
  · intro writeOk st repo sha
    exact dictGet_dictSet_self st repo sha
  · intro st repo sha
    exact ⟨rfl, rfl⟩

theorem filter_not_self_filter {α : Type} (p : α → Bool) (l : List α) :
    (l.filter (fun a => !(p a))).filter p = [] := by
  induction l with
  | nil => rfl
  | cons a as ih =>
    cases h : p a with
    | true => simp [List.filter_cons, h, ih]
    | false => simp [List.filter_cons, h, ih]

theorem mem_makedirsFs_self (d : FsPath) (fs : FileSystem) :
    d ∈ (makedirsFs d fs).dirs := by
  unfold makedirsFs
  by_cases h : d ∈ fs.dirs
  · simp [h]
  · simp [h]

theorem mem_makedirsFs_of_mem (d d2 : FsPath) (fs : FileSystem) (h : d ∈ fs.dirs) :
    d ∈ (makedirsFs d2 fs).dirs := by
  unfold makedirsFs
  by_cases h2 : d2 ∈ fs.dirs
  · simp [h2, h]
  · simp [h2, List.mem_append]
    exact Or.inl h

theorem cacheFiles_startup (fs : FileSystem) :
    cacheFiles (sensorStartupDirs fs) = [] := by
  show ((fs.files.filter (fun p => !(underDir identityDirPath p))).filter
      (fun p => !(underDir cacheDirPath p))).filter (underDir cacheDirPath) = []
  exact filter_not_self_filter (underDir cacheDirPath) _

theorem fsCacheExists_startup_false (fs : FileSystem) (ridFile : String → FsPath)
    (rid : String) : fsCacheExists (sensorStartupDirs fs) ridFile rid = false := by
  unfold fsCacheExists
  rw [cacheFiles_startup]
  simp

/-- Claim C10: the startup of core.py deletes and recreates the identity
and RID cache directories, so the cache holds no file — hence no identity
— at the start of every process lifetime, and the peer-discovery skip of
already-cached identities suppresses nothing right after a restart: every
non-self inventory identity is fetched. -/
theorem claim_C10_fresh_start (fs : FileSystem) (ridFile : String → FsPath) :
    cacheFiles (sensorStartupDirs fs) = [] ∧
    identityDirPath ∈ (sensorStartupDirs fs).dirs ∧
    cacheDirPath ∈ (sensorStartupDirs fs).dirs ∧
    (∀ rid, fsCacheExists (sensorStartupDirs fs) ridFile rid = false) ∧
    (∀ (selfRid peer : String) (p : PeerProfile) (rids : List String),
        RidType.koiNetNode ∈ p.providesEvent →
        (coordinator_contact
            ⟨selfRid, fsCacheExists (sensorStartupDirs fs) ridFile, some rids⟩
            .new peer (some p)).detailRequests =
          rids.filter (fun rid => rid != selfRid)) := by
  refine ⟨cacheFiles_startup fs, ?_, ?_,
    fun rid => fsCacheExists_startup_false fs ridFile rid, ?_⟩
  · exact mem_makedirsFs_of_mem identityDirPath cacheDirPath _
      (mem_makedirsFs_self identityDirPath _)
  · exact mem_makedirsFs_self cacheDirPath _
  · intro selfRid peer p rids hmem
    have hdet := coordinator_contact_details
      ⟨selfRid, fsCacheExists (sensorStartupDirs fs) ridFile, some rids⟩
      peer p rids hmem rfl
    rw [hdet]
    apply List.filter_congr
    intro rid hr
    simp [fsCacheExists_startup_false fs ridFile rid]

/-- A pre-startup filesystem already holding a cached identity file. -/
def fsC10 : FileSystem :=
  ⟨[cacheDirPath], [cacheDirPath ++ ["previously-cached"]]⟩

/-- Witness for claim C10: after startup over a filesystem with a
previously cached identity, the cache is empty and the inventory identity
p1 is fetched rather than skipped. -/
theorem claim_C10_witness :
    cacheFiles (sensorStartupDirs fsC10) = [] ∧
    (coordinator_contact
        ⟨"self", fsCacheExists (sensorStartupDirs fsC10) (fun r => cacheDirPath ++ [r]),
          some ["self", "p1"]⟩ .new "peer"
        (some ⟨[RidType.koiNetNode]⟩)).detailRequests = ["p1"] := by
  have h := claim_C10_fresh_start fsC10 (fun r => cacheDirPath ++ [r])
  refine ⟨h.1, ?_⟩
  have h5 := h.2.2.2.2 "self" "peer" ⟨[RidType.koiNetNode]⟩ ["self", "p1"]
    (List.mem_singleton_self _)
  rw [h5]
  rfl
